import Mathlib

/-!
# Lead Generation System — verification of the scoring/ranking core

Shallow embedding of the scoring and ranking logic of the repository:

* `src/biotech-lead-generator/src/scoring/propensity_scorer.py`
  (`PropensityScorer`: `calculate_score`, the four factor scorers,
  `score_batch`, `get_priority_tier`);
* `src/biotech-lead-generator/backend/app/services/scoring_service.py`
  (`ScoringService`: the backend variant of the same scorers, `_get_tier`);
* `src/biotech-lead-generator/backend/app/api/v1/endpoints/leads.py`
  (`update_lead_ranks`);
* `src/biotech-lead-generator/backend/app/models/lead.py`
  (`Lead.get_priority_tier`);
* `src/ai-lead-scoring-pipeline/src/enrichment/research_intent.py`,
  `src/ai/llm_classifier.py`, `src/score.py`, `src/score_pipeline.py`
  (`compute_scientific_intent_score`, `classify_relevance`, `apply_scoring`);
* `src/biotech-lead-generator/backend/app/core/cache.py`
  (the `cached` decorator, modelled as an interleaved read/compute/write
  protocol on a shared cache cell).

Strings are modelled as `List Char`; Python's substring test `kw in s` is the
infix relation on character lists; Python float arithmetic on the scorer's
exact decimal constants is modelled with `ℚ`.  The current year read from
`datetime.now()` is an explicit parameter of every function that consults it.
-/

namespace LeadGen

/-- ASCII lowercasing of one character, as Python's `str.lower` acts on the
ASCII range (the only range the scorers' keyword lists exercise). -/
def lowerChar (c : Char) : Char :=
  if 'A' ≤ c ∧ c ≤ 'Z' then Char.ofNat (c.toNat + 32) else c

/-- `s.lower()` on an ASCII string. -/
def lower (s : List Char) : List Char := s.map lowerChar

/-- ASCII uppercasing of one character (`str.upper`). -/
def upperChar (c : Char) : Char :=
  if 'a' ≤ c ∧ c ≤ 'z' then Char.ofNat (c.toNat - 32) else c

/-- `s.upper()` on an ASCII string. -/
def upper (s : List Char) : List Char := s.map upperChar

/-- Python's `needle in haystack` on strings: substring (infix) test. -/
def py_in (needle haystack : List Char) : Bool := decide (needle <:+: haystack)

/-- `any(kw in t for kw in kws)`. -/
def anyKw (kws : List (List Char)) (t : List Char) : Bool :=
  kws.any (fun k => py_in k t)

/-- Whitespace characters stripped by Python's `str.strip()` (ASCII part). -/
def isPySpace (c : Char) : Bool :=
  c = ' ' || c = '\t' || c = '\n' || c = '\x0d' || c = '\x0b' || c = '\x0c'

/-- `s.strip()`: drop leading and trailing whitespace. -/
def pyStrip (s : List Char) : List Char :=
  ((s.dropWhile isPySpace).reverse.dropWhile isPySpace).reverse

/-- Truncation toward zero, Python's `int()` on a float/decimal value. -/
def ratTrunc (q : ℚ) : ℤ := if 0 ≤ q then ⌊q⌋ else ⌈q⌉

/-- The lead attributes read by the scorers.  Optional text columns of the
backend model are represented by their `or ""` / `get(..., '')` defaults, the
optional `publication_year` by its `or 0` / `get(..., 0)` default. -/
structure Lead where
  title : List Char
  location : List Char
  company_funding : List Char
  recent_publication : Bool
  publication_year : ℤ
  publication_title : List Char
  /-- creation timestamp, used only as a rank tie-break witness -/
  created_at : ℤ
  id : ℤ
  deriving DecidableEq, Repr

/-- The weight configuration: `{'role_fit': .., 'publication': .., 'funding': ..,
'location': ..}`, a map of factor name to integer weight. -/
structure Weights where
  role_fit : ℤ
  publication : ℤ
  funding : ℤ
  location : ℤ
  deriving DecidableEq, Repr

/-- `sum(self.weights.values())`. -/
def Weights.total (w : Weights) : ℤ :=
  w.role_fit + w.publication + w.funding + w.location

/-- The system default weights (30/40/20/10). -/
def defaultWeights : Weights := ⟨30, 40, 20, 10⟩

/-- The seniority keyword list shared by both `_score_role_fit` variants. -/
def seniorityKeywords : List (List Char) :=
  ["director".toList, "head".toList, "vp".toList, "chief".toList,
   "lead".toList, "principal".toList]

namespace PropensityScorer

/-- `PropensityScorer.ROLE_KEYWORDS`. -/
def ROLE_KEYWORDS : List (List Char) :=
  ["toxicology".toList, "toxicologist".toList, "safety".toList,
   "preclinical".toList, "hepatic".toList, "liver".toList, "3d".toList,
   "in vitro".toList, "in-vitro".toList, "drug induced".toList,
   "dili".toList, "adme".toList, "safety assessment".toList,
   "safety pharmacology".toList, "nonclinical".toList, "director".toList,
   "head".toList, "vp".toList, "chief".toList, "lead".toList,
   "principal".toList]

/-- `PropensityScorer.STRATEGIC_LOCATIONS`. -/
def STRATEGIC_LOCATIONS : List (List Char) :=
  ["cambridge".toList, "boston".toList, "bay area".toList,
   "san francisco".toList, "south san francisco".toList, "san diego".toList,
   "basel".toList, "oxford".toList, "cambridge uk".toList, "london".toList,
   "seattle".toList, "new jersey".toList]

/-- `PropensityScorer._score_role_fit`. -/
def scoreRoleFit (w : Weights) (lead : Lead) : ℚ :=
  let title := lower lead.title
  let maxScore : ℚ := (w.role_fit : ℚ)
  let primaryMatch := anyKw ["toxicology".toList, "safety".toList, "hepatic".toList] title
  let techMatch := anyKw ["3d".toList, "in vitro".toList, "in-vitro".toList] title
  let score : ℚ :=
    if primaryMatch then maxScore
    else if techMatch then maxScore * 0.8
    else if anyKw ROLE_KEYWORDS title then maxScore * 0.6
    else maxScore * 0.2
  let score := if anyKw seniorityKeywords title then score * 1.2 else score
  min score maxScore

/-- `PropensityScorer._score_publication`; `currentYear` is
`datetime.now().year`. -/
def scorePublication (w : Weights) (currentYear : ℤ) (lead : Lead) : ℚ :=
  let maxScore : ℚ := (w.publication : ℚ)
  let pubTitle := lower lead.publication_title
  if lead.recent_publication ∧ currentYear - 2 ≤ lead.publication_year then
    if anyKw ["dili".toList, "liver injury".toList, "3d".toList,
              "organoid".toList, "toxicity".toList] pubTitle then
      maxScore
    else
      maxScore * 0.8
  else if 0 < lead.publication_year ∧ currentYear - 5 ≤ lead.publication_year then
    maxScore * 0.5
  else
    maxScore * 0.1

/-- `PropensityScorer._score_funding`. -/
def scoreFunding (w : Weights) (lead : Lead) : ℚ :=
  let maxScore : ℚ := (w.funding : ℚ)
  let funding := lower lead.company_funding
  if anyKw ["series a".toList, "series b".toList, "series c".toList] funding then
    maxScore
  else if anyKw ["public".toList, "ipo".toList] funding then
    maxScore * 0.8
  else if py_in "seed".toList funding || py_in "early".toList funding then
    maxScore * 0.4
  else
    maxScore * 0.2

/-- `PropensityScorer._score_location`. -/
def scoreLocation (w : Weights) (lead : Lead) : ℚ :=
  let maxScore : ℚ := (w.location : ℚ)
  let location := lower lead.location
  if anyKw ["cambridge, ma".toList, "boston".toList, "bay area".toList,
            "basel".toList] location then
    maxScore
  else if anyKw STRATEGIC_LOCATIONS location then
    maxScore * 0.6
  else
    maxScore * 0.2

/-- `PropensityScorer.calculate_score`: sum of the four sub-scores, truncated
to an integer and clamped to `[0, 100]`. -/
def calculate_score (w : Weights) (currentYear : ℤ) (lead : Lead) : ℤ :=
  let score := scoreRoleFit w lead + scorePublication w currentYear lead
             + scoreFunding w lead + scoreLocation w lead
  max 0 (min 100 (ratTrunc score))

/-- pandas `Series.rank(ascending=False, method='min')` on the score column:
each row's rank is one plus the number of rows with a strictly greater
score (tied rows share the lowest rank of their group). -/
def pandasMinRankDesc (scores : List ℤ) : List ℕ :=
  scores.map (fun s => (scores.filter (fun t => s < t)).length + 1)

/-- The `propensity_score` and `rank` columns produced by
`PropensityScorer.score_batch` (before the final sort, which only reorders
rows and changes no assigned value). -/
def score_batch (w : Weights) (currentYear : ℤ) (leads : List Lead) :
    List (Lead × ℤ × ℕ) :=
  let scores := leads.map (calculate_score w currentYear)
  let ranks := pandasMinRankDesc scores
  (leads.zip (scores.zip ranks))

/-- `PropensityScorer.get_priority_tier`. -/
def get_priority_tier (score : ℤ) : String :=
  if 70 ≤ score then "High" else if 50 ≤ score then "Medium" else "Low"

end PropensityScorer

namespace ScoringService

/-- `ScoringService._score_role_fit`. -/
def scoreRoleFit (w : Weights) (lead : Lead) : ℚ :=
  let title := lower lead.title
  let maxScore : ℚ := (w.role_fit : ℚ)
  if title = [] then maxScore * 0.2
  else
    let score : ℚ :=
      if anyKw ["toxicology".toList, "toxicologist".toList, "safety".toList,
                "hepatic".toList, "liver".toList] title then maxScore
      else if anyKw ["3d".toList, "in vitro".toList, "in-vitro".toList] title then
        maxScore * 0.8
      else if anyKw ["scientist".toList, "researcher".toList, "director".toList,
                     "vp".toList, "head".toList] title then
        maxScore * 0.6
      else maxScore * 0.2
    let score := if anyKw seniorityKeywords title then score * 1.2 else score
    min score maxScore

/-- `ScoringService._score_publication`. -/
def scorePublication (w : Weights) (currentYear : ℤ) (lead : Lead) : ℚ :=
  let maxScore : ℚ := (w.publication : ℚ)
  if lead.recent_publication = false then
    maxScore * 0.1
  else if currentYear - 2 ≤ lead.publication_year then
    let pubTitle := lower lead.publication_title
    if anyKw ["dili".toList, "liver injury".toList, "3d".toList,
              "organoid".toList, "toxicity".toList] pubTitle then
      maxScore
    else
      maxScore * 0.8
  else if currentYear - 5 ≤ lead.publication_year then
    maxScore * 0.5
  else
    maxScore * 0.1

/-- `ScoringService._score_funding`. -/
def scoreFunding (w : Weights) (lead : Lead) : ℚ :=
  let maxScore : ℚ := (w.funding : ℚ)
  let funding := lower lead.company_funding
  if funding = [] ∨ funding = "unknown".toList then
    maxScore * 0.2
  else if anyKw ["series a".toList, "series b".toList, "series c".toList] funding then
    maxScore
  else if anyKw ["public".toList, "ipo".toList] funding then
    maxScore * 0.8
  else if py_in "seed".toList funding || py_in "early".toList funding then
    maxScore * 0.4
  else
    maxScore * 0.2

/-- `ScoringService._score_location`. -/
def scoreLocation (w : Weights) (lead : Lead) : ℚ :=
  let maxScore : ℚ := (w.location : ℚ)
  let location := lower lead.location
  if location = [] then maxScore * 0.2
  else if anyKw ["cambridge, ma".toList, "boston".toList, "bay area".toList,
                 "basel".toList] location then
    maxScore
  else if anyKw ["san francisco".toList, "south san francisco".toList,
                 "san diego".toList, "oxford".toList, "cambridge uk".toList,
                 "london".toList, "seattle".toList, "new jersey".toList] location then
    maxScore * 0.6
  else
    maxScore * 0.2

/-- `ScoringService.calculate_score`. -/
def calculate_score (w : Weights) (currentYear : ℤ) (lead : Lead) : ℤ :=
  let score := scoreRoleFit w lead + scorePublication w currentYear lead
             + scoreFunding w lead + scoreLocation w lead
  max 0 (min 100 (ratTrunc score))

/-- `ScoringService._get_tier`. -/
def getTier (score : ℤ) : String :=
  if 70 ≤ score then "HIGH" else if 50 ≤ score then "MEDIUM" else "LOW"

end ScoringService

/-- `Lead.get_priority_tier` on the backend model: `None` scores are
`UNSCORED`. -/
def leadGetPriorityTier (score : Option ℤ) : String :=
  match score with
  | none => "UNSCORED"
  | some s => if 70 ≤ s then "HIGH" else if 50 ≤ s then "MEDIUM" else "LOW"

namespace Pipeline

/-- A PubMed identifier as returned by `fetch_recent_publications`. -/
abbrev PubId := String

/-- `classify_relevance(abstract)` from `src/ai/llm_classifier.py`.  The
external chat-completion call is an oracle: `response` is its outcome
(`Except` failure when the call raises).  An empty abstract, or one whose
stripped length is below 50 characters, short-circuits to `0.0` before any
call is made; otherwise the response is stripped, uppercased and mapped
`HIGH → 1.0`, `MEDIUM → 0.5`, anything else `→ 0.0`. -/
def classify_relevance (abstract : List Char)
    (response : Except String (List Char)) : Except String ℚ :=
  if abstract = [] ∨ (pyStrip abstract).length < 50 then .ok 0
  else
    response.map (fun r =>
      let result := upper (pyStrip r)
      if result = "HIGH".toList then 1
      else if result = "MEDIUM".toList then 0.5
      else 0)

/-- Python's `max(scores)` on a nonempty list. -/
def pyMax (s : ℚ) (rest : List ℚ) : ℚ := rest.foldl max s

/-- The per-identifier body of the loop in `compute_scientific_intent_score`:
`abstract = fetch_abstract(pid); score = classify_relevance(abstract)`.
Either external call may fail, and no failure is caught. -/
def itemScore (fetchAbstract : PubId → Except String (List Char))
    (classifyResponse : List Char → Except String (List Char))
    (pid : PubId) : Except String ℚ := do
  let abstract ← fetchAbstract pid
  classify_relevance abstract (classifyResponse abstract)

/-- `compute_scientific_intent_score` from
`src/enrichment/research_intent.py`, with the result of
`fetch_recent_publications` and the two external calls supplied as oracles.
Returns `0.0` when the identifier list is empty, otherwise the maximum of the
per-abstract scores; a failure of any individual fetch or classification
propagates (the `[] => .error` arm is unreachable: the identifier list is
nonempty there and `mapM` preserves length). -/
def compute_scientific_intent_score (pubmedIds : List PubId)
    (fetchAbstract : PubId → Except String (List Char))
    (classifyResponse : List Char → Except String (List Char)) :
    Except String ℚ :=
  if pubmedIds = [] then .ok 0
  else do
    let scores ← pubmedIds.mapM (itemScore fetchAbstract classifyResponse)
    match scores with
    | [] => .error "max() arg is an empty sequence"
    | s :: rest => .ok (pyMax s rest)

/-- `score_role_fit` from `src/score.py` (no lowercasing there). -/
def score_role_fit (title : List Char) : ℤ :=
  if anyKw ["toxicology".toList, "safety".toList, "hepatic".toList,
            "3d".toList] title then 30 else 0

/-- `score_scientific_intent` from `src/score.py`. -/
def score_scientific_intent (research_area : List Char) (year : Option ℤ) : ℤ :=
  match year with
  | none => 0
  | some y =>
    let s₁ : ℤ :=
      if anyKw ["toxicity".toList, "hepatic".toList, "3d".toList]
          (lower research_area) then 20 else 0
    let s₂ : ℤ := if 2023 ≤ y then 20 else 0
    min (s₁ + s₂) 40

/-- `score_funding` from `src/score.py` (list membership, not substring). -/
def score_funding (funding_stage : Option (List Char)) : ℤ :=
  if funding_stage = some "Series A".toList ∨ funding_stage = some "Series B".toList
  then 20
  else if funding_stage = some "Series C".toList then 15
  else 0

/-- `score_location` from `src/score.py` (equality against the hub list). -/
def score_location (location : List Char) : ℤ :=
  if (lower location) ∈ ["boston".toList, "cambridge".toList, "basel".toList,
                         "bay area".toList] then 10 else 0

/-- One row of the pipeline's dataframe: the columns `calculate_propensity_score`
and `apply_scoring` read. -/
structure Row where
  name : List Char
  title : List Char
  research_area : List Char
  last_publication_year : Option ℤ
  funding_stage : Option (List Char)
  person_location : List Char
  deriving DecidableEq, Repr

/-- `calculate_propensity_score(row)` from `src/score.py`: the base score
(capped at 100) and its breakdown total before the cap. -/
def calculate_propensity_score (row : Row) : ℤ :=
  let breakdown :=
    score_role_fit row.title
    + score_scientific_intent row.research_area row.last_publication_year
    + score_funding row.funding_stage
    + score_location row.person_location
  min breakdown 100

/-- The per-row body of `apply_scoring` from `src/score_pipeline.py`:
`ai_intent = compute_scientific_intent_score(name)` (its identifier-list and
external calls supplied as oracles), then
`final = min(base + int(ai_intent * 20), 100)`.  A failure inside the
enrichment propagates — `apply_scoring` wraps it in no handler. -/
def apply_scoring (pubmedIds : List PubId)
    (fetchAbstract : PubId → Except String (List Char))
    (classifyResponse : List Char → Except String (List Char))
    (row : Row) : Except String ℤ := do
  let aiIntent ← compute_scientific_intent_score pubmedIds fetchAbstract classifyResponse
  let bonus := ratTrunc (aiIntent * 20)
  .ok (min (calculate_propensity_score row + bonus) 100)

end Pipeline

namespace CacheModel

/-!
Model of the `cached` decorator in `backend/app/core/cache.py` for one cache
key: each caller executes `Cache.get(key)`; on a hit it returns the cached
value, on a miss it runs the underlying computation and `Cache.set`s the
result.  There is no pending-computation registry in the module, so the two
halves are separate awaited steps; the model exposes the interleaving as an
explicit schedule.  (Compute-and-set are taken as one atomic step, which only
narrows the race window relative to the code.)
-/

/-- Where a caller stands in the `cached` wrapper's body. -/
inductive Phase where
  | ready      -- about to execute `Cache.get`
  | willCompute -- observed a miss, about to run `func` and `Cache.set`
  | finished   -- returned
  deriving DecidableEq, Repr

/-- One caller of the wrapped function. -/
structure Caller where
  phase : Phase
  result : Option ℤ
  deriving DecidableEq, Repr

/-- The shared Redis cell for the key, the callers, and how many times the
underlying computation has run. -/
structure SysState where
  cache : Option ℤ
  callers : ℕ → Caller
  computes : ℕ

/-- One scheduler step: caller `i` executes its next awaited operation. -/
def step (v : ℤ) (s : SysState) (i : ℕ) : SysState :=
  match (s.callers i).phase, s.cache with
  | .ready, some w =>
      { s with callers := fun j => if j = i then ⟨.finished, some w⟩ else s.callers j }
  | .ready, none =>
      { s with callers := fun j => if j = i then ⟨.willCompute, none⟩ else s.callers j }
  | .willCompute, _ =>
      { cache := some v
        callers := fun j => if j = i then ⟨.finished, some v⟩ else s.callers j
        computes := s.computes + 1 }
  | .finished, _ => s

/-- All callers start at `Cache.get` with a cold cache. -/
def initial : SysState := ⟨none, fun _ => ⟨.ready, none⟩, 0⟩

/-- Run a schedule (a list of caller indices) from a state. -/
def run (v : ℤ) (s : SysState) (sched : List ℕ) : SysState :=
  sched.foldl (step v) s

/-- The fully serialized schedule: caller `0` runs to completion, then caller
`1`, and so on — each caller is given two consecutive steps. -/
def seqSched : ℕ → List ℕ
  | 0 => []
  | n + 1 => seqSched n ++ [n, n]

end CacheModel

/-- `update_lead_ranks(user_id, db)`: read all the scope's leads ordered by
`propensity_score DESC` (the query names no further sort key, so rows with
equal scores keep the store's retrieval order — modelled as a stable sort of
the given retrieval sequence, each lead paired with its stored
`propensity_score`), then assign `rank = 1, 2, ...` by enumeration. -/
def update_lead_ranks (leads : List (Lead × ℤ)) : List ((Lead × ℤ) × ℕ) :=
  let ordered := List.insertionSort (fun a b : Lead × ℤ => b.2 ≤ a.2) leads
  (List.enumFrom 1 ordered).map (fun p => (p.2, p.1))

/-! ## Concrete sample leads used by witnesses and counterexamples -/

/-- A lead with every attribute at its empty/absent default. -/
def baseLead : Lead := ⟨[], [], [], false, 0, [], 0, 1⟩

/-- Same attributes as `baseLead` but a distinct identity (id 2). -/
def baseLead2 : Lead := ⟨[], [], [], false, 0, [], 0, 2⟩

/-- Recent-publication flag unset, but a publication year inside the last
five years. -/
def pubLeadNoFlag : Lead := { baseLead with publication_year := 2024 }

/-- Flagged lead whose publication year sits at the two-year recency
boundary for 2025. -/
def boundaryLead : Lead :=
  { baseLead with recent_publication := true, publication_year := 2023 }

/-! ## C2 — score bounds -/

/-- C2: for every lead and every weight configuration summing to exactly 100,
`calculate_score` (both the `PropensityScorer` and the backend
`ScoringService` implementation) returns an integer in `[0, 100]`. -/
theorem C2_score_in_range (w : Weights) (currentYear : ℤ) (lead : Lead)
    (hw : w.total = 100) :
    (0 ≤ PropensityScorer.calculate_score w currentYear lead
      ∧ PropensityScorer.calculate_score w currentYear lead ≤ 100)
    ∧ (0 ≤ ScoringService.calculate_score w currentYear lead
      ∧ ScoringService.calculate_score w currentYear lead ≤ 100) := by
  refine ⟨⟨?_, ?_⟩, ⟨?_, ?_⟩⟩
  · exact le_max_left 0 _
  · exact max_le (by norm_num) (min_le_left _ _)
  · exact le_max_left 0 _
  · exact max_le (by norm_num) (min_le_left _ _)

/-- Witness for C2 at the default 30/40/20/10 weights and a concrete lead. -/
theorem C2_score_in_range_witness :
    (0 ≤ PropensityScorer.calculate_score defaultWeights 2025 baseLead
      ∧ PropensityScorer.calculate_score defaultWeights 2025 baseLead ≤ 100)
    ∧ (0 ≤ ScoringService.calculate_score defaultWeights 2025 baseLead
      ∧ ScoringService.calculate_score defaultWeights 2025 baseLead ≤ 100) :=
  C2_score_in_range defaultWeights 2025 baseLead (by decide)

/-! ## C10 — priority-tier partition -/

/-- C10: every lead falls in exactly one priority tier, a total function of
its (possibly absent) score: `HIGH` iff `score ≥ 70`, `MEDIUM` iff
`50 ≤ score < 70`, `LOW` iff `score < 50`, `UNSCORED` iff there is no score;
the backend `ScoringService._get_tier` agrees with `Lead.get_priority_tier`
on every scored value. -/
theorem C10_priority_tier_partition :
    (∀ s : Option ℤ,
      (leadGetPriorityTier s = "HIGH" ↔ ∃ v, s = some v ∧ 70 ≤ v)
      ∧ (leadGetPriorityTier s = "MEDIUM" ↔ ∃ v, s = some v ∧ 50 ≤ v ∧ v < 70)
      ∧ (leadGetPriorityTier s = "LOW" ↔ ∃ v, s = some v ∧ v < 50)
      ∧ (leadGetPriorityTier s = "UNSCORED" ↔ s = none))
    ∧ (∀ v : ℤ, ScoringService.getTier v = leadGetPriorityTier (some v)) := by
  constructor
  · intro s
    match s with
    | none =>
      refine ⟨?_, ?_, ?_, ?_⟩ <;> simp [leadGetPriorityTier]
    | some v =>
      by_cases h70 : 70 ≤ v
      · refine ⟨?_, ?_, ?_, ?_⟩ <;> simp [leadGetPriorityTier, h70] <;> omega
      · by_cases h50 : 50 ≤ v
        · refine ⟨?_, ?_, ?_, ?_⟩ <;> simp [leadGetPriorityTier, h70, h50] <;> omega
        · refine ⟨?_, ?_, ?_, ?_⟩ <;> simp [leadGetPriorityTier, h70, h50] <;> omega
  · intro v
    simp [ScoringService.getTier, leadGetPriorityTier]

/-- Witness for C10: a score of 72 is classified `HIGH`, and `None` is
`UNSCORED`. -/
theorem C10_priority_tier_partition_witness :
    leadGetPriorityTier (some 72) = "HIGH" ∧ leadGetPriorityTier none = "UNSCORED" :=
  ⟨((C10_priority_tier_partition.1 (some 72)).1).mpr ⟨72, rfl, by decide⟩,
   ((C10_priority_tier_partition.1 none).2.2.2).mpr rfl⟩

/-! ## C6 — publication sub-score with the flag unset -/

/-- C6 counterexample: in `PropensityScorer._score_publication` a lead whose
recent-publication flag is unset but whose `publication_year` lies within the
last five years scores 50% of the publication weight, not the claimed 10%. -/
theorem C6_counterexample :
    pubLeadNoFlag.recent_publication = false
    ∧ PropensityScorer.scorePublication defaultWeights 2025 pubLeadNoFlag
        ≠ (defaultWeights.publication : ℚ) * 0.1 := by
  refine ⟨rfl, ?_⟩
  norm_num [PropensityScorer.scorePublication, pubLeadNoFlag, baseLead,
    defaultWeights]

/-- C6 as amended: with the flag unset, the backend
`ScoringService._score_publication` returns exactly 10% of the publication
weight regardless of year and title; `PropensityScorer._score_publication`
does so only when the publication year is non-positive or older than five
years, and otherwise returns 50% of the weight. -/
theorem C6_amended_no_flag_publication (w : Weights) (y : ℤ) (lead : Lead)
    (h : lead.recent_publication = false) :
    ScoringService.scorePublication w y lead = (w.publication : ℚ) * 0.1
    ∧ PropensityScorer.scorePublication w y lead =
        (if 0 < lead.publication_year ∧ y - 5 ≤ lead.publication_year
         then (w.publication : ℚ) * 0.5 else (w.publication : ℚ) * 0.1) := by
  constructor
  · simp [ScoringService.scorePublication, h]
  · simp [PropensityScorer.scorePublication, h]

/-- Witness for the amended C6 at a concrete no-flag lead. -/
theorem C6_amended_no_flag_publication_witness :
    ScoringService.scorePublication defaultWeights 2025 pubLeadNoFlag
      = (defaultWeights.publication : ℚ) * 0.1
    ∧ PropensityScorer.scorePublication defaultWeights 2025 pubLeadNoFlag =
        (if 0 < pubLeadNoFlag.publication_year
            ∧ 2025 - 5 ≤ pubLeadNoFlag.publication_year
         then (defaultWeights.publication : ℚ) * 0.5
         else (defaultWeights.publication : ℚ) * 0.1) :=
  C6_amended_no_flag_publication defaultWeights 2025 pubLeadNoFlag rfl

/-! ## C7 — determinism of the weighted score -/

/-- C7 counterexample: `calculate_score` reads the clock
(`datetime.now().year`).  For a fixed lead and fixed weights, evaluating with
the system clock in 2025 and again in 2026 yields different totals, so two
evaluations on the same lead attributes and weights are not always
identical. -/
theorem C7_counterexample :
    PropensityScorer.calculate_score defaultWeights 2025 boundaryLead
      ≠ PropensityScorer.calculate_score defaultWeights 2026 boundaryLead := by
  have h1 : PropensityScorer.calculate_score defaultWeights 2025 boundaryLead = 44 := by
    simp +decide [PropensityScorer.calculate_score, PropensityScorer.scoreRoleFit,
      PropensityScorer.scorePublication, PropensityScorer.scoreFunding,
      PropensityScorer.scoreLocation, ratTrunc, boundaryLead, baseLead,
      defaultWeights]
    norm_num
  have h2 : PropensityScorer.calculate_score defaultWeights 2026 boundaryLead = 32 := by
    simp +decide [PropensityScorer.calculate_score, PropensityScorer.scoreRoleFit,
      PropensityScorer.scorePublication, PropensityScorer.scoreFunding,
      PropensityScorer.scoreLocation, ratTrunc, boundaryLead, baseLead,
      defaultWeights]
    norm_num
  rw [h1, h2]; decide

/-- C7 as amended: `calculate_score` is a pure function of the lead
attributes, the weights and the current clock year — and for a lead with no
publication signal (flag unset, no positive publication year) the clock year
does not influence the result at all, in either implementation. -/
theorem C7_amended_determinism (w : Weights) (lead : Lead) (y₁ y₂ : ℤ)
    (hflag : lead.recent_publication = false)
    (hyear : lead.publication_year ≤ 0) :
    PropensityScorer.calculate_score w y₁ lead
      = PropensityScorer.calculate_score w y₂ lead
    ∧ ScoringService.calculate_score w y₁ lead
      = ScoringService.calculate_score w y₂ lead := by
  have hPS : ∀ y : ℤ, PropensityScorer.scorePublication w y lead
      = (w.publication : ℚ) * 0.1 := by
    intro y
    have hno : ¬ (0 < lead.publication_year ∧ y - 5 ≤ lead.publication_year) := by
      rintro ⟨h1, -⟩; omega
    have hno2 : ¬ (lead.recent_publication = true ∧ y - 2 ≤ lead.publication_year) := by
      rw [hflag]; rintro ⟨h, -⟩; cases h
    simp only [PropensityScorer.scorePublication]
    rw [if_neg hno2, if_neg hno]
  have hSS : ∀ y : ℤ, ScoringService.scorePublication w y lead
      = (w.publication : ℚ) * 0.1 := by
    intro y
    simp only [ScoringService.scorePublication]
    rw [if_pos hflag]
  constructor
  · simp [PropensityScorer.calculate_score, hPS]
  · simp [ScoringService.calculate_score, hSS]

/-- Witness for the amended C7: a no-publication lead scores identically in
2025 and 2026. -/
theorem C7_amended_determinism_witness :
    PropensityScorer.calculate_score defaultWeights 2025 baseLead
      = PropensityScorer.calculate_score defaultWeights 2026 baseLead
    ∧ ScoringService.calculate_score defaultWeights 2025 baseLead
      = ScoringService.calculate_score defaultWeights 2026 baseLead :=
  C7_amended_determinism defaultWeights baseLead 2025 2026 rfl (by decide)

/-! ## Helper lemmas on `Except` and the enrichment pipeline -/

theorem except_ok_bind {α β : Type} (a : α) (k : α → Except String β) :
    (Except.ok a >>= k) = k a := rfl

theorem except_error_bind {α β : Type} (e : String) (k : α → Except String β) :
    ((Except.error e : Except String α) >>= k) = .error e := rfl

theorem except_bind_ok {α β : Type} {m : Except String α} {k : α → Except String β}
    {b : β} (h : (m >>= k) = .ok b) : ∃ a, m = .ok a ∧ k a = .ok b := by
  cases m with
  | error e => exact absurd h (by simp [Bind.bind, Except.bind])
  | ok a => exact ⟨a, rfl, by simpa [Bind.bind, Except.bind] using h⟩

/-- `classify_relevance` can only succeed with one of the values 0, 0.5, 1. -/
theorem classify_relevance_values {a : List Char} {r : Except String (List Char)}
    {q : ℚ} (h : Pipeline.classify_relevance a r = .ok q) :
    q = 0 ∨ q = 0.5 ∨ q = 1 := by
  unfold Pipeline.classify_relevance at h
  split at h
  · cases h; exact Or.inl rfl
  · cases r with
    | error e => exact absurd h (by simp [Except.map])
    | ok s =>
        simp only [Except.map] at h
        cases h
        split
        · exact Or.inr (Or.inr rfl)
        · split
          · exact Or.inr (Or.inl rfl)
          · exact Or.inl rfl

/-- A successful per-identifier score is one of 0, 0.5, 1. -/
theorem itemScore_values {f : Pipeline.PubId → Except String (List Char)}
    {c : List Char → Except String (List Char)} {pid : Pipeline.PubId} {q : ℚ}
    (h : Pipeline.itemScore f c pid = .ok q) : q = 0 ∨ q = 0.5 ∨ q = 1 := by
  unfold Pipeline.itemScore at h
  obtain ⟨a, -, h2⟩ := except_bind_ok h
  exact classify_relevance_values h2

/-- Every element of a successful `mapM` output comes from a successful call
on some element of the input list. -/
theorem mapM_ok_mem {α : Type} {f : α → Except String ℚ} :
    ∀ {l : List α} {out : List ℚ}, l.mapM f = .ok out →
      ∀ q ∈ out, ∃ a ∈ l, f a = .ok q := by
  intro l
  induction l with
  | nil =>
      intro out h q hq
      rw [List.mapM_nil] at h
      cases h
      cases hq
  | cons a t ih =>
      intro out h q hq
      rw [List.mapM_cons] at h
      obtain ⟨b, hb, h2⟩ := except_bind_ok h
      obtain ⟨bs, hbs, h3⟩ := except_bind_ok h2
      cases h3
      rcases List.mem_cons.mp hq with rfl | hq2
      · exact ⟨a, List.mem_cons_self a t, hb⟩
      · obtain ⟨x, hx, hfx⟩ := ih hbs q hq2
        exact ⟨x, List.mem_cons_of_mem a hx, hfx⟩

/-- If any element of the input fails, the whole `mapM` fails. -/
theorem mapM_error_of_mem {α : Type} {f : α → Except String ℚ} :
    ∀ {l : List α} {pid : α} {e : String}, pid ∈ l → f pid = .error e →
      ∃ e', l.mapM f = .error e' := by
  intro l
  induction l with
  | nil => intro pid e h _; cases h
  | cons a t ih =>
      intro pid e hmem hf
      rw [List.mapM_cons]
      cases hfa : f a with
      | error e2 => exact ⟨e2, by simp [hfa, Bind.bind, Except.bind]⟩
      | ok b =>
          rcases List.mem_cons.mp hmem with rfl | hmem2
          · rw [hfa] at hf; cases hf
          · obtain ⟨e', he'⟩ := ih hmem2 hf
            refine ⟨e', ?_⟩
            rw [except_ok_bind, he', except_error_bind]

theorem le_pyMax : ∀ (rest : List ℚ) (s : ℚ), s ≤ Pipeline.pyMax s rest
  | [], s => le_refl s
  | x :: l, s => le_trans (le_max_left s x) (le_pyMax l (max s x))

theorem pyMax_le {b : ℚ} : ∀ (rest : List ℚ) (s : ℚ), s ≤ b →
    (∀ x ∈ rest, x ≤ b) → Pipeline.pyMax s rest ≤ b
  | [], _, hs, _ => hs
  | x :: l, s, hs, h =>
      pyMax_le l (max s x) (max_le hs (h x (List.mem_cons_self x l)))
        (fun y hy => h y (List.mem_cons_of_mem x hy))

/-! ## C5 — the enrichment bonus contract -/

/-- C5: on the success path `compute_scientific_intent_score` returns a value
in `[0, 1]`; it returns `0.0` when the identifier list is empty; a short or
empty abstract classifies to `0.0` without consulting the external
classifier, a successful classifier response maps `HIGH → 1.0`,
`MEDIUM → 0.5`, anything else `→ 0.0`; and on a nonempty identifier list the
subject's bonus is the maximum of the per-abstract scores. -/
theorem C5_intent_bonus_contract :
    (∀ ids f c q, Pipeline.compute_scientific_intent_score ids f c = .ok q →
        0 ≤ q ∧ q ≤ 1)
    ∧ (∀ f c, Pipeline.compute_scientific_intent_score [] f c = .ok 0)
    ∧ (∀ a r, (a = [] ∨ (pyStrip a).length < 50) →
        Pipeline.classify_relevance a r = .ok 0)
    ∧ (∀ a r, ¬ (a = [] ∨ (pyStrip a).length < 50) →
        Pipeline.classify_relevance a (.ok r) = .ok
          (if upper (pyStrip r) = "HIGH".toList then 1
           else if upper (pyStrip r) = "MEDIUM".toList then 0.5
           else 0))
    ∧ (∀ ids f c s rest, ids ≠ [] →
        ids.mapM (Pipeline.itemScore f c) = Except.ok (s :: rest) →
        Pipeline.compute_scientific_intent_score ids f c
          = .ok (Pipeline.pyMax s rest)) := by
  refine ⟨?_, ?_, ?_, ?_, ?_⟩
  · intro ids f c q h
    unfold Pipeline.compute_scientific_intent_score at h
    split at h
    · cases h; exact ⟨le_refl 0, by norm_num⟩
    · obtain ⟨scores, hs, h2⟩ := except_bind_ok h
      match scores, h2 with
      | [], h2 => exact absurd h2 (by simp)
      | s :: rest, h2 =>
        cases h2
        have hvals : ∀ x ∈ s :: rest, x = 0 ∨ x = 0.5 ∨ x = 1 := by
          intro x hx
          obtain ⟨pid, -, hitem⟩ := mapM_ok_mem hs x hx
          exact itemScore_values hitem
        have hub : ∀ x ∈ s :: rest, x ≤ 1 := by
          intro x hx
          rcases hvals x hx with rfl | rfl | rfl <;> norm_num
        have hs0 : 0 ≤ s := by
          rcases hvals s (List.mem_cons_self s rest) with rfl | rfl | rfl <;> norm_num
        refine ⟨le_trans hs0 (le_pyMax rest s), ?_⟩
        exact pyMax_le rest s (hub s (List.mem_cons_self s rest))
          (fun y hy => hub y (List.mem_cons_of_mem s hy))
  · intro f c
    simp [Pipeline.compute_scientific_intent_score]
  · intro a r h
    unfold Pipeline.classify_relevance
    rw [if_pos h]
  · intro a r h
    unfold Pipeline.classify_relevance
    rw [if_neg h]
    rfl
  · intro ids f c s rest hne hmap
    unfold Pipeline.compute_scientific_intent_score
    rw [if_neg hne, hmap, except_ok_bind]

/-- Witness for C5: an empty identifier list yields a bonus of exactly 0. -/
theorem C5_intent_bonus_contract_witness :
    Pipeline.compute_scientific_intent_score []
      (fun _ => .error "no network") (fun _ => .error "no network") = .ok 0 :=
  C5_intent_bonus_contract.2.1 (fun _ => .error "no network")
    (fun _ => .error "no network")

/-! ## C4 — enrichment failures and the scoring call -/

/-- Dataframe row with empty attributes, used as a concrete scoring input. -/
def row0 : Pipeline.Row := ⟨"a".toList, [], [], none, none, []⟩

/-- C4 counterexample: one publication identifier whose abstract fetch fails
makes the whole scoring call fail — `apply_scoring` returns the propagated
error instead of a result built from the base score. -/
theorem C4_counterexample :
    Pipeline.apply_scoring ["p1"] (fun _ => .error "upstream timeout")
      (fun _ => .error "upstream timeout") row0 = .error "upstream timeout" := by
  rfl

/-- C4 as amended: when the bibliographic lookup returns an empty identifier
list the bonus is `0.0` and `apply_scoring` still returns the capped base
score; but a fetch or classification failure for an individual publication is
not caught — it propagates and fails the scoring call. -/
theorem C4_amended_enrichment_failure
    (f : Pipeline.PubId → Except String (List Char))
    (c : List Char → Except String (List Char)) (row : Pipeline.Row) :
    Pipeline.compute_scientific_intent_score [] f c = .ok 0
    ∧ Pipeline.apply_scoring [] f c row
        = .ok (min (Pipeline.calculate_propensity_score row) 100)
    ∧ (∀ ids pid e, pid ∈ ids → Pipeline.itemScore f c pid = .error e →
        ∃ e', Pipeline.compute_scientific_intent_score ids f c = .error e') := by
  refine ⟨?_, ?_, ?_⟩
  · simp [Pipeline.compute_scientific_intent_score]
  · have h0 : Pipeline.compute_scientific_intent_score [] f c = .ok 0 := by
      simp [Pipeline.compute_scientific_intent_score]
    unfold Pipeline.apply_scoring
    rw [h0]
    have htr : ratTrunc ((0 : ℚ) * 20) = 0 := by norm_num [ratTrunc]
    simp only [except_ok_bind, htr, add_zero]
  · intro ids pid e hmem hitem
    obtain ⟨e', he'⟩ := mapM_error_of_mem hmem hitem
    have hne : ids ≠ [] := by rintro rfl; cases hmem
    refine ⟨e', ?_⟩
    unfold Pipeline.compute_scientific_intent_score
    rw [if_neg hne, he', except_error_bind]

/-- Witness for the amended C4 at concrete oracles and row. -/
theorem C4_amended_enrichment_failure_witness :
    Pipeline.compute_scientific_intent_score []
      (fun _ => .error "x") (fun _ => .error "x") = .ok 0 :=
  (C4_amended_enrichment_failure (fun _ => .error "x") (fun _ => .error "x")
    row0).1

/-! ## C8 — seniority monotonicity of the role-fit sub-score -/

theorem lower_append (s t : List Char) : lower (s ++ t) = lower s ++ lower t :=
  List.map_append lowerChar s t

theorem py_in_append {kw t : List Char} (u : List Char) (h : py_in kw t = true) :
    py_in kw (t ++ u) = true := by
  simp only [py_in, decide_eq_true_eq] at h ⊢
  exact h.trans ⟨[], u, by simp⟩

theorem anyKw_append {kws : List (List Char)} {t : List Char} (u : List Char)
    (h : anyKw kws t = true) : anyKw kws (t ++ u) = true := by
  simp only [anyKw, List.any_eq_true] at h ⊢
  obtain ⟨k, hk, hin⟩ := h
  exact ⟨k, hk, py_in_append u hin⟩

theorem lower_seniority {k : List Char} (hk : k ∈ seniorityKeywords) :
    lower k = k := by
  fin_cases hk <;> decide

/-- Lowercasing the title with a seniority keyword appended. -/
theorem lower_extend (t : List Char) {k : List Char}
    (hk : k ∈ seniorityKeywords) :
    lower (t ++ ' ' :: k) = lower t ++ ' ' :: k := by
  have hsp : lowerChar ' ' = ' ' := by decide
  have hlk := lower_seniority hk
  simp only [lower] at hlk
  simp only [lower, List.map_append, List.map_cons, hsp, hlk]

/-- The extended title always matches the seniority keyword list. -/
theorem seniority_in_extended (t : List Char) {k : List Char}
    (hk : k ∈ seniorityKeywords) :
    anyKw seniorityKeywords (lower t ++ ' ' :: k) = true := by
  simp only [anyKw, List.any_eq_true]
  refine ⟨k, hk, ?_⟩
  simp only [py_in, decide_eq_true_eq]
  exact ⟨lower t ++ [' '], [], by simp⟩

/-- The four-tier keyword category is monotone under pointwise implication of
its three match conditions. -/
theorem cat_le_cat {M : ℚ} (hM : 0 ≤ M) {c1 c2 c3 c1' c2' c3' : Bool}
    (h1 : c1 = true → c1' = true) (h2 : c2 = true → c2' = true)
    (h3 : c3 = true → c3' = true) :
    (if c1 then M else if c2 then M * 0.8 else if c3 then M * 0.6 else M * 0.2)
      ≤ (if c1' then M else if c2' then M * 0.8
         else if c3' then M * 0.6 else M * 0.2) := by
  cases c1 <;> cases c2 <;> cases c3 <;> cases c1' <;> cases c2' <;> cases c3' <;>
    simp_all <;> nlinarith

theorem cat_nonneg {M : ℚ} (hM : 0 ≤ M) (c1 c2 c3 : Bool) :
    0 ≤ (if c1 then M else if c2 then M * 0.8
         else if c3 then M * 0.6 else M * 0.2) := by
  cases c1 <;> cases c2 <;> cases c3 <;> simp <;> nlinarith

theorem cat_ge_baseline {M : ℚ} (hM : 0 ≤ M) (c1 c2 c3 : Bool) :
    M * 0.2 ≤ (if c1 then M else if c2 then M * 0.8
               else if c3 then M * 0.6 else M * 0.2) := by
  cases c1 <;> cases c2 <;> cases c3 <;> simp <;> nlinarith

/-- The clamped seniority-boosted value always dominates the 20% baseline. -/
theorem baseline_le_senior {M : ℚ} (hM : 0 ≤ M) (c1 c2 c3 : Bool) :
    M * 0.2 ≤ min ((if c1 then M else if c2 then M * 0.8
                    else if c3 then M * 0.6 else M * 0.2) * 1.2) M := by
  cases c1 <;> cases c2 <;> cases c3 <;> simp [le_min_iff] <;>
    constructor <;> nlinarith

/-- Replacing the category by a larger one and forcing the seniority bonus on
can only raise the clamped role-fit value. -/
theorem roleFit_step_le {M cat cat' : ℚ} (hM : 0 ≤ M) (h0 : 0 ≤ cat)
    (hcc : cat ≤ cat') (se : Bool) :
    min (if se then cat * 1.2 else cat) M ≤ min (cat' * 1.2) M := by
  have h1 : (if se then cat * 1.2 else cat) ≤ cat' * 1.2 := by
    cases se
    · simpa using (by nlinarith : cat ≤ cat' * 1.2)
    · simpa using (by nlinarith : cat * 1.2 ≤ cat' * 1.2)
  exact min_le_min h1 le_rfl

/-- C8: appending any seniority keyword to a title never lowers the role-fit
sub-score, and the sub-score of the extended title never exceeds the role_fit
weight cap — in both implementations (nonnegative role_fit weight). -/
theorem C8_role_fit_seniority_mono (w : Weights) (lead : Lead) (k : List Char)
    (hw : 0 ≤ w.role_fit) (hk : k ∈ seniorityKeywords) :
    (PropensityScorer.scoreRoleFit w lead
       ≤ PropensityScorer.scoreRoleFit w { lead with title := lead.title ++ ' ' :: k }
     ∧ PropensityScorer.scoreRoleFit w { lead with title := lead.title ++ ' ' :: k }
       ≤ (w.role_fit : ℚ))
    ∧ (ScoringService.scoreRoleFit w lead
       ≤ ScoringService.scoreRoleFit w { lead with title := lead.title ++ ' ' :: k }
     ∧ ScoringService.scoreRoleFit w { lead with title := lead.title ++ ' ' :: k }
       ≤ (w.role_fit : ℚ)) := by
  have hM : (0 : ℚ) ≤ (w.role_fit : ℚ) := by exact_mod_cast hw
  have hext : lower (lead.title ++ ' ' :: k) = lower lead.title ++ ' ' :: k :=
    lower_extend lead.title hk
  have hsen : anyKw seniorityKeywords (lower lead.title ++ ' ' :: k) = true :=
    seniority_in_extended lead.title hk
  refine ⟨⟨?_, ?_⟩, ⟨?_, ?_⟩⟩
  · simp only [PropensityScorer.scoreRoleFit]
    dsimp only
    rw [hext]
    simp only [hsen, if_true]
    exact roleFit_step_le hM (cat_nonneg hM _ _ _)
      (cat_le_cat hM (anyKw_append _) (anyKw_append _) (anyKw_append _)) _
  · simp only [PropensityScorer.scoreRoleFit]
    dsimp only
    exact min_le_right _ _
  · simp only [ScoringService.scoreRoleFit]
    dsimp only
    rw [hext]
    have hne : lower lead.title ++ ' ' :: k ≠ [] := by simp
    rw [if_neg hne]
    simp only [hsen, if_true]
    by_cases h0 : lower lead.title = []
    · rw [if_pos h0]
      exact baseline_le_senior hM _ _ _
    · rw [if_neg h0]
      exact roleFit_step_le hM (cat_nonneg hM _ _ _)
        (cat_le_cat hM (anyKw_append _) (anyKw_append _) (anyKw_append _)) _
  · simp only [ScoringService.scoreRoleFit]
    dsimp only
    rw [hext]
    have hne : lower lead.title ++ ' ' :: k ≠ [] := by simp
    rw [if_neg hne]
    exact min_le_right _ _

/-- Witness for C8 at a concrete title and keyword. -/
theorem C8_role_fit_seniority_mono_witness :
    (PropensityScorer.scoreRoleFit defaultWeights baseLead
       ≤ PropensityScorer.scoreRoleFit defaultWeights
           { baseLead with title := baseLead.title ++ ' ' :: "director".toList }
     ∧ PropensityScorer.scoreRoleFit defaultWeights
           { baseLead with title := baseLead.title ++ ' ' :: "director".toList }
       ≤ (defaultWeights.role_fit : ℚ))
    ∧ (ScoringService.scoreRoleFit defaultWeights baseLead
       ≤ ScoringService.scoreRoleFit defaultWeights
           { baseLead with title := baseLead.title ++ ' ' :: "director".toList }
     ∧ ScoringService.scoreRoleFit defaultWeights
           { baseLead with title := baseLead.title ++ ' ' :: "director".toList }
       ≤ (defaultWeights.role_fit : ℚ)) :=
  C8_role_fit_seniority_mono defaultWeights baseLead "director".toList
    (by decide) (by decide)

/-! ## C9 — concurrent misses against the `cached` decorator -/

theorem CacheModel.run_append (v : ℤ) (s : CacheModel.SysState)
    (l₁ l₂ : List ℕ) :
    CacheModel.run v s (l₁ ++ l₂) = CacheModel.run v (CacheModel.run v s l₁) l₂ :=
  List.foldl_append _ _ _ _

/-- After the fully serialized schedule, exactly one computation has run, the
cache holds its value, the first `n` callers all finished with that value,
and every other caller is untouched. -/
theorem seq_run_invariant (v : ℤ) :
    ∀ n : ℕ, 1 ≤ n →
      (CacheModel.run v CacheModel.initial (CacheModel.seqSched n)).cache = some v
      ∧ (CacheModel.run v CacheModel.initial (CacheModel.seqSched n)).computes = 1
      ∧ (∀ i, i < n →
          (CacheModel.run v CacheModel.initial (CacheModel.seqSched n)).callers i
            = ⟨CacheModel.Phase.finished, some v⟩)
      ∧ (∀ i, n ≤ i →
          (CacheModel.run v CacheModel.initial (CacheModel.seqSched n)).callers i
            = ⟨CacheModel.Phase.ready, none⟩) := by
  intro n
  induction n with
  | zero => intro h; omega
  | succ m ih =>
    intro _
    by_cases hm : 1 ≤ m
    case neg =>
      have hm0 : m = 0 := by omega
      subst hm0
      refine ⟨rfl, rfl, ?_, ?_⟩
      · intro i hi
        have hi0 : i = 0 := by omega
        subst hi0; rfl
      · intro i hi
        have hi0 : ¬ (i = 0) := by omega
        simp [CacheModel.run, CacheModel.seqSched, CacheModel.step,
          CacheModel.initial, hi0]
    case pos =>
      obtain ⟨hc, hcomp, hdone, hready⟩ := ih hm
      have hdecomp : CacheModel.seqSched (m + 1)
          = CacheModel.seqSched m ++ [m, m] := rfl
      rw [hdecomp, CacheModel.run_append]
      set s := CacheModel.run v CacheModel.initial (CacheModel.seqSched m) with hs
      have hstep1 : CacheModel.step v s m =
          { s with callers := fun j =>
              if j = m then ⟨CacheModel.Phase.finished, some v⟩
              else s.callers j } := by
        unfold CacheModel.step
        rw [hready m le_rfl, hc]
      have hstep2 : CacheModel.step v (CacheModel.step v s m) m
          = CacheModel.step v s m := by
        rw [hstep1]
        unfold CacheModel.step
        simp
      show (CacheModel.run v s [m, m]).cache = some v
        ∧ (CacheModel.run v s [m, m]).computes = 1
        ∧ _ ∧ _
      have hrun : CacheModel.run v s [m, m] = CacheModel.step v s m := by
        show CacheModel.step v (CacheModel.step v s m) m = CacheModel.step v s m
        exact hstep2
      rw [hrun, hstep1]
      refine ⟨hc, hcomp, ?_, ?_⟩
      · intro i hi
        by_cases him : i = m
        · subst him; simp
        · simp only [him, if_false]
          exact hdone i (by omega)
      · intro i hi
        have him : ¬ (i = m) := by omega
        simp only [him, if_false]
        exact hready i (by omega)

/-- C9 counterexample: two concurrent callers that both observe the cold
cache before either writes (schedule: get A, get B, compute-and-set A,
compute-and-set B) each run the underlying computation — two computations,
not one — even though both finish with the computed value. -/
theorem C9_counterexample :
    (CacheModel.run 7 CacheModel.initial [0, 1, 0, 1]).computes = 2
    ∧ (CacheModel.run 7 CacheModel.initial [0, 1, 0, 1]).callers 0
        = ⟨CacheModel.Phase.finished, some 7⟩
    ∧ (CacheModel.run 7 CacheModel.initial [0, 1, 0, 1]).callers 1
        = ⟨CacheModel.Phase.finished, some 7⟩ :=
  ⟨rfl, rfl, rfl⟩

/-- C9 as amended: the cache layer has no `get_or_compute`/pending-computation
registry; the `cached` decorator issues an unguarded get → compute → set, so
concurrent misses on one key can each trigger the computation.  Exactly one
computation is guaranteed only when the callers do not interleave: if each of
`n` callers runs to completion before the next starts, the first computes and
every other caller is served the cached value of that single computation. -/
theorem C9_amended_single_compute_when_serialized (v : ℤ) (n : ℕ)
    (hn : 1 ≤ n) :
    (CacheModel.run v CacheModel.initial (CacheModel.seqSched n)).computes = 1
    ∧ ∀ i, i < n →
        (CacheModel.run v CacheModel.initial (CacheModel.seqSched n)).callers i
          = ⟨CacheModel.Phase.finished, some v⟩ := by
  obtain ⟨-, h2, h3, -⟩ := seq_run_invariant v n hn
  exact ⟨h2, h3⟩

/-- Witness for the amended C9 with two serialized callers. -/
theorem C9_amended_single_compute_when_serialized_witness :
    (CacheModel.run 7 CacheModel.initial (CacheModel.seqSched 2)).computes = 1 :=
  (C9_amended_single_compute_when_serialized 7 2 (by decide)).1

/-! ## C1 / C3 — rank recomputation over a scope -/

/-- Sortedness of the `ORDER BY propensity_score DESC` read. -/
theorem insertionSort_score_desc (leads : List (Lead × ℤ)) :
    (List.insertionSort (fun a b : Lead × ℤ => b.2 ≤ a.2) leads).Pairwise
      (fun a b : Lead × ℤ => b.2 ≤ a.2) := by
  haveI : IsTotal (Lead × ℤ) (fun a b : Lead × ℤ => b.2 ≤ a.2) :=
    ⟨fun a b => le_total b.2 a.2⟩
  haveI : IsTrans (Lead × ℤ) (fun a b : Lead × ℤ => b.2 ≤ a.2) :=
    ⟨fun a b c h1 h2 => le_trans h2 h1⟩
  exact List.sorted_insertionSort _ leads

/-- Membership in the ranked output, unpacked to the enumerated sorted
list. -/
theorem mem_update_lead_ranks {leads : List (Lead × ℤ)} {p : (Lead × ℤ) × ℕ}
    (hp : p ∈ update_lead_ranks leads) :
    (p.2, p.1) ∈ List.enumFrom 1
      (List.insertionSort (fun a b : Lead × ℤ => b.2 ≤ a.2) leads) := by
  unfold update_lead_ranks at hp
  obtain ⟨r, hr, hrp⟩ := List.mem_map.mp hp
  have h1 : r.1 = p.2 := by rw [← hrp]
  have h2 : r.2 = p.1 := by rw [← hrp]
  have : r = (p.2, p.1) := Prod.ext h1 h2
  rwa [this] at hr

/-- Entries earlier in rank never have a smaller stored score. -/
theorem update_lead_ranks_rank_lt_imp {leads : List (Lead × ℤ)}
    {p q : (Lead × ℤ) × ℕ} (hp : p ∈ update_lead_ranks leads)
    (hq : q ∈ update_lead_ranks leads) (hlt : p.2 < q.2) :
    q.1.2 ≤ p.1.2 := by
  have hp' := mem_update_lead_ranks hp
  have hq' := mem_update_lead_ranks hq
  obtain ⟨hp1, hp2, hp3⟩ := List.mem_enumFrom hp'
  obtain ⟨hq1, hq2, hq3⟩ := List.mem_enumFrom hq'
  have hsorted := insertionSort_score_desc leads
  rw [List.pairwise_iff_getElem] at hsorted
  have hij : p.2 - 1 < q.2 - 1 := by omega
  have h := hsorted (p.2 - 1) (q.2 - 1) (by omega) (by omega) hij
  rw [← hp3, ← hq3] at h
  exact h

/-- The rank determines the entry. -/
theorem update_lead_ranks_rank_inj {leads : List (Lead × ℤ)}
    {p q : (Lead × ℤ) × ℕ} (hp : p ∈ update_lead_ranks leads)
    (hq : q ∈ update_lead_ranks leads) (heq : p.2 = q.2) : p = q := by
  have hp' := mem_update_lead_ranks hp
  have hq' := mem_update_lead_ranks hq
  obtain ⟨hp1, hp2, hp3⟩ := List.mem_enumFrom hp'
  obtain ⟨hq1, hq2, hq3⟩ := List.mem_enumFrom hq'
  have : p.1 = q.1 := by rw [hp3, hq3]; congr 1; omega
  exact Prod.ext this heq

/-- The lead sequence of the ranked output is the sorted read. -/
theorem update_lead_ranks_map_fst (leads : List (Lead × ℤ)) :
    (update_lead_ranks leads).map Prod.fst
      = List.insertionSort (fun a b : Lead × ℤ => b.2 ≤ a.2) leads := by
  unfold update_lead_ranks
  rw [List.map_map]
  have : (Prod.fst ∘ fun p : ℕ × (Lead × ℤ) => (p.2, p.1)) = Prod.snd := rfl
  rw [this, List.enumFrom_map_snd]

/-- The rank sequence of the ranked output is exactly `1, ..., N`. -/
theorem update_lead_ranks_map_snd (leads : List (Lead × ℤ)) :
    (update_lead_ranks leads).map Prod.snd = List.range' 1 leads.length := by
  unfold update_lead_ranks
  rw [List.map_map]
  have : (Prod.snd ∘ fun p : ℕ × (Lead × ℤ) => (p.2, p.1)) = Prod.fst := rfl
  rw [this, List.enumFrom_map_fst, List.length_insertionSort]

/-- `orderedInsert` never changes the subsequence of entries with any given
score, beyond placing the new entry in front of it when scores agree. -/
theorem orderedInsert_filter_score (a : Lead × ℤ) (l : List (Lead × ℤ)) (c : ℤ) :
    ((List.orderedInsert (fun x y : Lead × ℤ => y.2 ≤ x.2) a l).filter
        (fun x => x.2 = c))
      = (if a.2 = c then a :: l.filter (fun x : Lead × ℤ => x.2 = c)
         else l.filter (fun x : Lead × ℤ => x.2 = c)) := by
  induction l with
  | nil =>
      by_cases hac : a.2 = c <;> simp [List.orderedInsert, List.filter, hac]
  | cons b t ih =>
      by_cases hr : (b.2 : ℤ) ≤ a.2
      · rw [List.orderedInsert, if_pos hr]
        by_cases hac : a.2 = c <;> simp [List.filter_cons, hac]
      · rw [List.orderedInsert, if_neg hr]
        by_cases hac : a.2 = c
        · have hbc : ¬ (b.2 = c) := by
            intro hbc
            exact hr (by omega)
          simp [List.filter_cons, hbc, ih, hac]
        · simp [List.filter_cons, ih, hac]

/-- A stable sort: for every score value, the entries carrying that score
appear in the sorted output in their original (retrieval) order. -/
theorem insertionSort_filter_score (l : List (Lead × ℤ)) (c : ℤ) :
    ((List.insertionSort (fun x y : Lead × ℤ => y.2 ≤ x.2) l).filter
        (fun x => x.2 = c))
      = l.filter (fun x : Lead × ℤ => x.2 = c) := by
  induction l with
  | nil => rfl
  | cons a t ih =>
      rw [List.insertionSort, orderedInsert_filter_score]
      by_cases hac : a.2 = c <;> simp [List.filter_cons, hac, ih]

/-- Two equal-score leads in retrieval order: the newer one first. -/
def leadOld : Lead := { baseLead with created_at := 1, id := 1 }

/-- The lead created later (larger `created_at`, larger id). -/
def leadNew : Lead := { baseLead with created_at := 2, id := 2 }

/-- C3 counterexample: the recompute orders by `propensity_score DESC` only.
With two equal-score leads retrieved as `[newer, older]`, the newer lead
(created_at 2) receives rank 1 and the older (created_at 1) rank 2 — the
opposite of the claimed ascending-`created_at` tie-break. -/
theorem C3_counterexample :
    update_lead_ranks [(leadNew, 50), (leadOld, 50)]
      = [((leadNew, 50), 1), ((leadOld, 50), 2)]
    ∧ leadOld.created_at < leadNew.created_at
    ∧ leadOld.id < leadNew.id := by
  refine ⟨by decide, by decide, by decide⟩

/-- C3 as amended: the recompute sorts by score descending only and assigns
ranks `1..N` in that order; among equal scores no `created_at`/id tie-break
is applied — tied leads keep the backing store's retrieval order (the sort is
stable). -/
theorem C3_amended_no_tiebreak (leads : List (Lead × ℤ)) :
    (∀ p ∈ update_lead_ranks leads, ∀ q ∈ update_lead_ranks leads,
        p.2 < q.2 → q.1.2 ≤ p.1.2)
    ∧ ((update_lead_ranks leads).map Prod.snd = List.range' 1 leads.length)
    ∧ (∀ c : ℤ, ((update_lead_ranks leads).map Prod.fst).filter
          (fun x : Lead × ℤ => x.2 = c)
        = leads.filter (fun x : Lead × ℤ => x.2 = c)) := by
  refine ⟨?_, update_lead_ranks_map_snd leads, ?_⟩
  · exact fun p hp q hq h => update_lead_ranks_rank_lt_imp hp hq h
  · intro c
    rw [update_lead_ranks_map_fst]
    exact insertionSort_filter_score leads c

/-- Witness for the amended C3 at the two-lead retrieval order above. -/
theorem C3_amended_no_tiebreak_witness :
    ((update_lead_ranks [(leadNew, 50), (leadOld, 50)]).map Prod.fst).filter
        (fun x : Lead × ℤ => x.2 = 50)
      = [(leadNew, 50), (leadOld, 50)].filter (fun x : Lead × ℤ => x.2 = 50) :=
  (C3_amended_no_tiebreak [(leadNew, 50), (leadOld, 50)]).2.2 50

/-! ### pandas `rank(method='min')` facts for `score_batch` -/

theorem zip_zip_map_snd_snd {α β γ : Type} :
    ∀ (l₁ : List α) (l₂ : List β) (l₃ : List γ), l₁.length = l₃.length →
      l₂.length = l₃.length →
      (l₁.zip (l₂.zip l₃)).map (fun r => r.2.2) = l₃ := by
  intro l₁
  induction l₁ with
  | nil =>
      intro l₂ l₃ h1 _
      cases l₃ with
      | nil => rfl
      | cons c t => simp at h1
  | cons a t ih =>
      intro l₂ l₃ h1 h2
      cases l₃ with
      | nil => simp at h1
      | cons c t₃ =>
          cases l₂ with
          | nil => simp at h2
          | cons b t₂ =>
              simp only [List.zip_cons_cons, List.map_cons]
              rw [ih t₂ t₃ (by simpa using h1) (by simpa using h2)]

/-- The rank column of `score_batch` is the min-method descending rank of the
score column. -/
theorem batch_ranks_eq (w : Weights) (y : ℤ) (rows : List Lead) :
    (PropensityScorer.score_batch w y rows).map (fun r => r.2.2)
      = PropensityScorer.pandasMinRankDesc
          (rows.map (PropensityScorer.calculate_score w y)) := by
  unfold PropensityScorer.score_batch
  apply zip_zip_map_snd_snd
  · simp [PropensityScorer.pandasMinRankDesc]
  · simp [PropensityScorer.pandasMinRankDesc]

theorem filter_gt_length_mono (u : List ℤ) {x y : ℤ} (hxy : y < x) :
    (u.filter (fun t => x < t)).length ≤ (u.filter (fun t => y < t)).length := by
  rw [← List.countP_eq_length_filter, ← List.countP_eq_length_filter]
  exact List.countP_mono_left (fun a _ h => by
    simp only [decide_eq_true_eq] at h ⊢
    omega)

theorem filter_gt_length_lt {s : List ℤ} {x y : ℤ} (hx : x ∈ s) (hxy : y < x) :
    (s.filter (fun t => x < t)).length < (s.filter (fun t => y < t)).length := by
  obtain ⟨u, v, rfl⟩ := List.append_of_mem hx
  rw [List.filter_append, List.filter_append, List.filter_cons, List.filter_cons]
  have h1 : (decide (x < x)) = false := by simp
  have h2 : (decide (y < x)) = true := by simpa using hxy
  rw [h1, h2]
  simp only [Bool.false_eq_true, if_false, if_true, List.length_append,
    List.length_cons]
  have hu := filter_gt_length_mono u hxy
  have hv := filter_gt_length_mono v hxy
  omega

/-- On a strictly descending list, the min-method rank of the `i`-th element
is `i + 1`. -/
theorem map_rank_sorted :
    ∀ (t : List ℤ), t.Pairwise (fun a b => b < a) →
      t.map (fun x => (t.filter (fun y => x < y)).length + 1)
        = List.range' 1 t.length := by
  intro t
  induction t with
  | nil => intro _; rfl
  | cons a t ih =>
      intro hpw
      rw [List.pairwise_cons] at hpw
      obtain ⟨hhead, htail⟩ := hpw
      rw [List.map_cons]
      have h0 : (List.filter (fun y => a < y) (a :: t)).length = 0 := by
        rw [List.length_eq_zero, List.filter_eq_nil_iff]
        intro b hb
        rcases List.mem_cons.mp hb with rfl | hb2
        · simp
        · have := hhead b hb2
          simp only [decide_eq_true_eq]
          omega
      have htl : t.map (fun x => (List.filter (fun y => x < y) (a :: t)).length + 1)
          = t.map (fun x => ((List.filter (fun y => x < y) t).length + 1) + 1) := by
        apply List.map_congr_left
        intro x hx
        rw [List.filter_cons]
        have hxa : (decide (x < a)) = true := by
          simpa using hhead x hx
        rw [hxa]
        simp
      have hcomp : t.map (fun x => ((List.filter (fun y => x < y) t).length + 1) + 1)
          = (t.map (fun x => (List.filter (fun y => x < y) t).length + 1)).map
              (fun n => n + 1) := by
        rw [List.map_map]; rfl
      have hshift : (List.range' 1 t.length).map (fun n => n + 1)
          = List.range' 2 t.length := by
        have hadd := List.map_add_range' 1 1 t.length 1
        rw [← hadd]
        exact List.map_congr_left (fun n _ => by omega)
      rw [h0, htl, hcomp, ih htail, hshift, List.length_cons, List.range'_succ]

/-- With pairwise-distinct scores, the min-method descending ranks are a
permutation of `1..N`. -/
theorem pandasMinRankDesc_perm_of_nodup {scores : List ℤ} (h : scores.Nodup) :
    (PropensityScorer.pandasMinRankDesc scores).Perm
      (List.range' 1 scores.length) := by
  unfold PropensityScorer.pandasMinRankDesc
  haveI : IsTotal ℤ (fun a b : ℤ => b ≤ a) := ⟨fun a b => le_total b a⟩
  haveI : IsTrans ℤ (fun a b : ℤ => b ≤ a) := ⟨fun a b c h1 h2 => le_trans h2 h1⟩
  set t := List.insertionSort (fun a b : ℤ => b ≤ a) scores with ht
  have hperm : t.Perm scores := List.perm_insertionSort _ _
  have hsorted : t.Pairwise (fun a b : ℤ => b ≤ a) := List.sorted_insertionSort _ _
  have hnd : t.Nodup := hperm.nodup_iff.mpr h
  have hstrict : t.Pairwise (fun a b : ℤ => b < a) :=
    (hsorted.and hnd).imp (fun hab => lt_of_le_of_ne hab.1 (Ne.symm hab.2))
  have hcong : t.map (fun s => (scores.filter (fun u => s < u)).length + 1)
      = t.map (fun s => (t.filter (fun u => s < u)).length + 1) :=
    List.map_congr_left (fun x _ => by rw [← (hperm.filter _).length_eq])
  refine (hperm.symm.map _).trans ?_
  rw [hcong, map_rank_sorted t hstrict, hperm.length_eq]

/-! ### C1 — the rank multiset and ordering -/

/-- C1 counterexample: scoring two identical-attribute leads through
`score_batch` ties their scores, and pandas min-method ranking assigns both
rank 1: the rank multiset is `{1, 1}`, not `{1, 2}`. -/
theorem C1_counterexample :
    ((PropensityScorer.score_batch defaultWeights 2025 [baseLead, baseLead2]).map
        (fun r => r.2.2)) = [1, 1]
    ∧ ¬ (([1, 1] : List ℕ).Perm (List.range' 1 2)) := by
  constructor
  · have hb : PropensityScorer.calculate_score defaultWeights 2025 baseLead = 16 := by
      simp +decide [PropensityScorer.calculate_score, PropensityScorer.scoreRoleFit,
        PropensityScorer.scorePublication, PropensityScorer.scoreFunding,
        PropensityScorer.scoreLocation, ratTrunc, baseLead, defaultWeights]
      norm_num [min_def]
    have hb2 : PropensityScorer.calculate_score defaultWeights 2025 baseLead2 = 16 := by
      simp +decide [PropensityScorer.calculate_score, PropensityScorer.scoreRoleFit,
        PropensityScorer.scorePublication, PropensityScorer.scoreFunding,
        PropensityScorer.scoreLocation, ratTrunc, baseLead2, defaultWeights]
      norm_num [min_def]
    rw [batch_ranks_eq]
    simp only [List.map_cons, List.map_nil, hb, hb2]
    decide
  · decide

/-- C1 as amended: `update_lead_ranks` assigns ranks exactly `1..N` (in rank
order) and strictly higher scores receive strictly smaller ranks;
`score_batch` assigns min-method competition ranks, for which the strict
score-order property holds and the ranks are a permutation of `1..N` whenever
the computed scores are pairwise distinct (under ties, tied rows share the
lowest rank of their group and the following ranks are skipped). -/
theorem C1_amended_rank_recompute (leads : List (Lead × ℤ)) (w : Weights)
    (y : ℤ) (rows : List Lead)
    (hnd : (rows.map (PropensityScorer.calculate_score w y)).Nodup) :
    ((update_lead_ranks leads).map Prod.snd = List.range' 1 leads.length)
    ∧ (∀ p ∈ update_lead_ranks leads, ∀ q ∈ update_lead_ranks leads,
        q.1.2 < p.1.2 → p.2 < q.2)
    ∧ (((PropensityScorer.score_batch w y rows).map (fun r => r.2.2)).Perm
        (List.range' 1 rows.length))
    ∧ (∀ p ∈ (rows.map (PropensityScorer.calculate_score w y)).zip
          ((PropensityScorer.score_batch w y rows).map (fun r => r.2.2)),
       ∀ q ∈ (rows.map (PropensityScorer.calculate_score w y)).zip
          ((PropensityScorer.score_batch w y rows).map (fun r => r.2.2)),
        q.1 < p.1 → p.2 < q.2) := by
  refine ⟨update_lead_ranks_map_snd leads, ?_, ?_, ?_⟩
  · intro p hp q hq hlt
    rcases lt_trichotomy p.2 q.2 with h | h | h
    · exact h
    · exfalso
      have := update_lead_ranks_rank_inj hp hq h
      rw [this] at hlt
      exact lt_irrefl _ hlt
    · exfalso
      have hle := update_lead_ranks_rank_lt_imp hq hp h
      exact absurd hle (not_le.mpr hlt)
  · have hp := pandasMinRankDesc_perm_of_nodup hnd
    rw [List.length_map] at hp
    rw [batch_ranks_eq]
    exact hp
  · intro p hp q hq hlt
    rw [batch_ranks_eq] at hp hq
    set scores := rows.map (PropensityScorer.calculate_score w y) with hsc
    obtain ⟨ip, hip⟩ := List.mem_iff_get.mp hp
    obtain ⟨iq, hiq⟩ := List.mem_iff_get.mp hq
    rw [List.get_eq_getElem, List.getElem_zip] at hip hiq
    unfold PropensityScorer.pandasMinRankDesc at hip hiq
    simp only [List.getElem_map] at hip hiq
    rw [← hip, ← hiq] at hlt ⊢
    dsimp only at hlt ⊢
    have hmem : scores[ip.1] ∈ scores := List.getElem_mem _
    have := filter_gt_length_lt hmem hlt
    omega

/-- Witness for the amended C1 at a concrete two-lead scope and a singleton
batch. -/
theorem C1_amended_rank_recompute_witness :
    (update_lead_ranks [(leadOld, 60), (leadNew, 50)]).map Prod.snd
      = List.range' 1 2 :=
  (C1_amended_rank_recompute [(leadOld, 60), (leadNew, 50)] defaultWeights 2025
    [baseLead] (by simp)).1

end LeadGen
